import Mathlib

/-!
Verification development for the zone-picker selection engine.

The definitions below are shallow embeddings of the TypeScript sources:
geometry helpers (IntersectionHelpers), the selection strategies
(SelectionStrategy), the canvas rendering provider's selection-shape
completion (CanvasRenderingProvider), and the provider-based ZoneSelector
orchestrator together with its pointer-event handlers.  Numbers are
modelled as exact rationals; callbacks are modelled as an emitted event
list; the external rendering provider's hit test, rendered-shape registry
and geometric intersection test are abstract parameters (an `Env`).
-/

namespace ZonePicker

/-- A 2-D point in surface (canvas) or world coordinates. -/
structure Point where
  x : ℚ
  y : ℚ
deriving DecidableEq, Repr

/-- World-coordinate viewport bounds, from types.ts. -/
structure ViewportBounds where
  minX : ℚ
  minY : ℚ
  maxX : ℚ
  maxY : ℚ
deriving DecidableEq, Repr

/-- A canvas size (paper.Size / getCanvasSize()). -/
structure Size where
  width : ℚ
  height : ℚ
deriving DecidableEq, Repr

/-- worldToCanvas from IntersectionHelpers.ts: affine map from world bounds
to pixel bounds with the vertical axis inverted. -/
def worldToCanvas (x y : ℚ) (viewportBounds : ViewportBounds) (canvasSize : Size) : Point :=
  let worldWidth := viewportBounds.maxX - viewportBounds.minX
  let worldHeight := viewportBounds.maxY - viewportBounds.minY
  let canvasX := ((x - viewportBounds.minX) / worldWidth) * canvasSize.width
  let canvasY := canvasSize.height - ((y - viewportBounds.minY) / worldHeight) * canvasSize.height
  ⟨canvasX, canvasY⟩

/-- canvasToWorld from CanvasRenderingProvider.ts: the algebraic inverse of
worldToCanvas for the same bounds and size snapshot. -/
def canvasToWorld (point : Point) (viewportBounds : ViewportBounds) (canvasSize : Size) : ℚ × ℚ :=
  let worldWidth := viewportBounds.maxX - viewportBounds.minX
  let worldHeight := viewportBounds.maxY - viewportBounds.minY
  let worldX := viewportBounds.minX + (point.x / canvasSize.width) * worldWidth
  let worldY := viewportBounds.minY + ((canvasSize.height - point.y) / canvasSize.height) * worldHeight
  (worldX, worldY)

/-- The example viewport of the spec: minX -10, maxX 10, minY -10, maxY 10. -/
def exampleViewport : ViewportBounds := ⟨-10, -10, 10, 10⟩

/-- The example 800 by 600 canvas of the spec. -/
def exampleCanvas : Size := ⟨800, 600⟩

/-- C7: for every world point inside the viewport bounds and every positive
canvas size, canvasToWorld inverts worldToCanvas exactly (the rational model
of the float computation); and on the example viewport and 800 by 600 canvas,
worldToCanvas maps (0,0) to (400,300), (-10,-10) to (0,600), (10,10) to (800,0). -/
theorem transform_roundtrip (vb : ViewportBounds) (cs : Size) (x y : ℚ)
    (hwx : vb.minX < vb.maxX) (hwy : vb.minY < vb.maxY)
    (hcw : 0 < cs.width) (hch : 0 < cs.height)
    (hx1 : vb.minX ≤ x) (hx2 : x ≤ vb.maxX)
    (hy1 : vb.minY ≤ y) (hy2 : y ≤ vb.maxY) :
    canvasToWorld (worldToCanvas x y vb cs) vb cs = (x, y) ∧
    worldToCanvas 0 0 exampleViewport exampleCanvas = ⟨400, 300⟩ ∧
    worldToCanvas (-10) (-10) exampleViewport exampleCanvas = ⟨0, 600⟩ ∧
    worldToCanvas 10 10 exampleViewport exampleCanvas = ⟨800, 0⟩ := by
  refine ⟨?_, by norm_num [worldToCanvas, exampleViewport, exampleCanvas],
    by norm_num [worldToCanvas, exampleViewport, exampleCanvas],
    by norm_num [worldToCanvas, exampleViewport, exampleCanvas]⟩
  have hwx' : vb.maxX - vb.minX ≠ 0 := sub_ne_zero.mpr (ne_of_gt hwx)
  have hwy' : vb.maxY - vb.minY ≠ 0 := sub_ne_zero.mpr (ne_of_gt hwy)
  have hcw' : cs.width ≠ 0 := ne_of_gt hcw
  have hch' : cs.height ≠ 0 := ne_of_gt hch
  unfold worldToCanvas canvasToWorld
  refine Prod.ext ?_ ?_ <;> simp only <;> field_simp <;> ring

/-- Witness for transform_roundtrip: instantiated at the spec's example
viewport and canvas with the world origin. -/
theorem transform_roundtrip_witness :
    exampleViewport.minX < exampleViewport.maxX ∧
    canvasToWorld (worldToCanvas 0 0 exampleViewport exampleCanvas)
      exampleViewport exampleCanvas = (0, 0) :=
  ⟨by norm_num [exampleViewport],
   (transform_roundtrip exampleViewport exampleCanvas 0 0
      (by norm_num [exampleViewport]) (by norm_num [exampleViewport])
      (by norm_num [exampleCanvas]) (by norm_num [exampleCanvas])
      (by norm_num [exampleViewport]) (by norm_num [exampleViewport])
      (by norm_num [exampleViewport]) (by norm_num [exampleViewport])).1⟩

/-! ## Geometry predicates with their fault-fallback chain

lassoContainsShape and pathIntersectsShape wrap paper.js geometric
primitives in try/catch.  The primitives (contains, getIntersections,
length, getPointAt) are external library calls; they are modelled as
abstract fallible functions (`Except Unit`), so the theorems quantify over
every possible primitive behaviour, faulting ones included.  The
bounding-box fallback is the only primitive required to be total. -/

/-- Axis-aligned bounds of a paper.js path (path.bounds). -/
structure Rect where
  minX : ℚ
  minY : ℚ
  maxX : ℚ
  maxY : ℚ
deriving DecidableEq, Repr

/-- The abstract data of a paper.js Path used by the helpers: its position
(center), its segment points and its bounds. -/
structure PPath where
  position : Point
  segmentPoints : List Point
  bounds : Rect
deriving DecidableEq, Repr

/-- The five bound points probed by lassoContainsShape: topLeft, topRight,
bottomLeft, bottomRight, center. -/
def boundsCorners (r : Rect) : List Point :=
  [⟨r.minX, r.minY⟩, ⟨r.maxX, r.minY⟩, ⟨r.minX, r.maxY⟩, ⟨r.maxX, r.maxY⟩,
   ⟨(r.minX + r.maxX) / 2, (r.minY + r.maxY) / 2⟩]

/-- The fallible geometric primitives supplied by paper.js. -/
structure GeomPrims where
  contains : PPath → Point → Except Unit Bool
  getIntersectionsCount : PPath → PPath → Except Unit Nat
  pathLength : PPath → Except Unit ℚ
  getPointAt : PPath → ℚ → Except Unit (Option Point)
  boundsIntersects : PPath → PPath → Bool

/-- The vertex / corner loops of lassoContainsShape: test each point for
containment in the lasso, returning on the first true result and
propagating the first primitive fault. -/
def containsAnyLoop (g : GeomPrims) (lasso : PPath) : List Point → Except Unit Bool
  | [] => .ok false
  | p :: ps =>
    match g.contains lasso p with
    | .error e => .error e
    | .ok true => .ok true
    | .ok false => containsAnyLoop g lasso ps

/-- The try-block of lassoContainsShape: centroid, then polygon vertices,
then bounds corners, then boundary intersections. -/
def lassoMainCheck (g : GeomPrims) (lasso shape : PPath) : Except Unit Bool :=
  match g.contains lasso shape.position with
  | .error e => .error e
  | .ok true => .ok true
  | .ok false =>
    match containsAnyLoop g lasso shape.segmentPoints with
    | .error e => .error e
    | .ok true => .ok true
    | .ok false =>
      match containsAnyLoop g lasso (boundsCorners shape.bounds) with
      | .error e => .error e
      | .ok true => .ok true
      | .ok false =>
        match g.getIntersectionsCount lasso shape with
        | .error e => .error e
        | .ok n => .ok (decide (0 < n))

/-- The catch-block of lassoContainsShape: retry only the centroid test and
return false if that also faults. -/
def centroidFallback (g : GeomPrims) (lasso shape : PPath) : Bool :=
  match g.contains lasso shape.position with
  | .ok b => b
  | .error _ => false

/-- lassoContainsShape from IntersectionHelpers.ts. -/
def lassoContainsShape (g : GeomPrims) (lasso shape : PPath) : Bool :=
  match lassoMainCheck g lasso shape with
  | .ok b => b
  | .error _ => centroidFallback g lasso shape

/-- The sampling loop of pathIntersectsShape: walk the sample offsets, test
each sampled point for containment in the shape, returning on the first
true result and propagating a primitive fault. -/
def sampleLoop (g : GeomPrims) (path shape : PPath) (pathLength : ℚ) (sampleCount : ℕ) :
    List ℕ → Except Unit Bool
  | [] => .ok false
  | i :: rest =>
    let offset := ((i : ℚ) / (sampleCount : ℚ)) * pathLength
    match g.getPointAt path offset with
    | .error e => .error e
    | .ok none => sampleLoop g path shape pathLength sampleCount rest
    | .ok (some pt) =>
      match g.contains shape pt with
      | .error e => .error e
      | .ok true => .ok true
      | .ok false => sampleLoop g path shape pathLength sampleCount rest

/-- The try-block of pathIntersectsShape: boundary intersections first,
then even sampling along the path (at least 10 samples, one per 5 length
units otherwise). -/
def pathMainCheck (g : GeomPrims) (path shape : PPath) : Except Unit Bool :=
  match g.getIntersectionsCount path shape with
  | .error e => .error e
  | .ok n =>
    if 0 < n then .ok true
    else
      match g.pathLength path with
      | .error e => .error e
      | .ok len =>
        let sampleCount := max 10 (Int.toNat ⌊len / 5⌋)
        sampleLoop g path shape len sampleCount (List.range (sampleCount + 1))

/-- pathIntersectsShape from IntersectionHelpers.ts: fall back to the
bounding-box overlap test when the try-block faults. -/
def pathIntersectsShape (g : GeomPrims) (path shape : PPath) : Bool :=
  match pathMainCheck g path shape with
  | .ok b => b
  | .error _ => g.boundsIntersects path shape

/-- C5: both predicates are total Bool-valued functions for every primitive
behaviour; when the main containment computation faults, lassoContainsShape
reduces to the centroid-only test, which itself returns false if the
centroid test faults; when the main path computation faults,
pathIntersectsShape reduces to the bounding-box overlap test. -/
theorem geometry_fallback_chain (g : GeomPrims) (lasso shape path shape2 : PPath) :
    (lassoMainCheck g lasso shape = .error () →
      lassoContainsShape g lasso shape = centroidFallback g lasso shape) ∧
    (g.contains lasso shape.position = .error () →
      centroidFallback g lasso shape = false) ∧
    (pathMainCheck g path shape2 = .error () →
      pathIntersectsShape g path shape2 = g.boundsIntersects path shape2) := by
  refine ⟨?_, ?_, ?_⟩
  · intro h
    unfold lassoContainsShape
    rw [h]
  · intro h
    unfold centroidFallback
    rw [h]
  · intro h
    unfold pathIntersectsShape
    rw [h]

/-- Primitives that fault on every call, modelling fully degenerate
geometry (e.g. self-intersecting or zero-length inputs that make paper.js
throw everywhere). -/
def allFaultPrims : GeomPrims where
  contains := fun _ _ => .error ()
  getIntersectionsCount := fun _ _ => .error ()
  pathLength := fun _ => .error ()
  getPointAt := fun _ _ => .error ()
  boundsIntersects := fun p s =>
    decide (p.bounds.minX ≤ s.bounds.maxX) && decide (s.bounds.minX ≤ p.bounds.maxX) &&
    decide (p.bounds.minY ≤ s.bounds.maxY) && decide (s.bounds.minY ≤ p.bounds.maxY)

/-- A concrete degenerate zero-extent path used as a witness input. -/
def degeneratePath : PPath := ⟨⟨0, 0⟩, [], ⟨0, 0, 0, 0⟩⟩

/-- Witness for geometry_fallback_chain: with primitives that always fault
and a degenerate zero-extent shape, the lasso predicate returns false and
the path predicate returns the bounding-box overlap result, with no
exception escaping. -/
theorem geometry_fallback_chain_witness :
    (lassoMainCheck allFaultPrims degeneratePath degeneratePath = .error ()) ∧
    (pathMainCheck allFaultPrims degeneratePath degeneratePath = .error ()) ∧
    lassoContainsShape allFaultPrims degeneratePath degeneratePath =
      centroidFallback allFaultPrims degeneratePath degeneratePath ∧
    centroidFallback allFaultPrims degeneratePath degeneratePath = false ∧
    pathIntersectsShape allFaultPrims degeneratePath degeneratePath =
      allFaultPrims.boundsIntersects degeneratePath degeneratePath :=
  ⟨rfl, rfl,
   (geometry_fallback_chain allFaultPrims degeneratePath degeneratePath
      degeneratePath degeneratePath).1 rfl,
   (geometry_fallback_chain allFaultPrims degeneratePath degeneratePath
      degeneratePath degeneratePath).2.1 rfl,
   (geometry_fallback_chain allFaultPrims degeneratePath degeneratePath
      degeneratePath degeneratePath).2.2 rfl⟩

/-! ## Selection strategies (SelectionStrategy.ts, paper-path snapshot)

The lasso and path strategies build the drag shape the same way — moveTo
at the start, lineTo on each grow step — and differ only in completion:
the lasso appends the start point and seals the ring, the path leaves the
polyline untouched. -/

/-- DragMode from types.ts: 'lasso' | 'path'. -/
inductive DragMode where
  | lasso : DragMode
  | path : DragMode
deriving DecidableEq, Repr

/-- A selection shape: the drag polyline's points in insertion order, and
whether closePath has sealed it. -/
structure SelShape where
  points : List Point
  closed : Bool
deriving DecidableEq, Repr

/-- createShape: a fresh path with moveTo(start), identical for both
strategies. -/
def strategyCreateShape (_mode : DragMode) (start : Point) : SelShape :=
  ⟨[start], false⟩

/-- updateShape: shape.lineTo(current); the start argument is unused by
both strategies. -/
def strategyUpdateShape (_mode : DragMode) (shape : SelShape) (current _start : Point) : SelShape :=
  ⟨shape.points ++ [current], shape.closed⟩

/-- completeSelection: the lasso strategy does shape.lineTo(start) then
shape.closePath(); the path strategy leaves the shape untouched. -/
def strategyCompleteSelection (mode : DragMode) (shape : SelShape) (start : Point) : SelShape :=
  match mode with
  | .lasso => ⟨shape.points ++ [start], true⟩
  | .path => shape

/-- A drag shape built by createShape at `start` followed by one
updateShape per grown point, in order. -/
def buildShape (mode : DragMode) (start : Point) (grown : List Point) : SelShape :=
  grown.foldl (fun sh p => strategyUpdateShape mode sh p start) (strategyCreateShape mode start)

theorem foldl_update_points (mode : DragMode) (start : Point) :
    ∀ (grown : List Point) (sh : SelShape),
      grown.foldl (fun acc p => strategyUpdateShape mode acc p start) sh =
        ⟨sh.points ++ grown, sh.closed⟩ := by
  intro grown
  induction grown with
  | nil => intro sh; simp
  | cons p ps ih =>
    intro sh
    rw [List.foldl_cons, ih]
    simp [strategyUpdateShape]

theorem buildShape_eq (mode : DragMode) (start : Point) (grown : List Point) :
    buildShape mode start grown = ⟨start :: grown, false⟩ := by
  unfold buildShape strategyCreateShape
  rw [foldl_update_points]
  simp

/-- C6: after completeSelection on a lasso shape with at least two grown
points, the ring's first and last points both equal the drag start and the
ring is sealed; completeSelection on a path shape is the identity, and the
path's point sequence is exactly the start point followed by the grown
points. -/
theorem lasso_closure_invariant (start : Point) (grown : List Point)
    (hlen : 2 ≤ grown.length) :
    (strategyCompleteSelection .lasso (buildShape .lasso start grown) start).points.head? =
      some start ∧
    (strategyCompleteSelection .lasso (buildShape .lasso start grown) start).points.getLast? =
      some start ∧
    (strategyCompleteSelection .lasso (buildShape .lasso start grown) start).closed = true ∧
    strategyCompleteSelection .path (buildShape .path start grown) start =
      buildShape .path start grown ∧
    (buildShape .path start grown).points = start :: grown := by
  rw [buildShape_eq, buildShape_eq]
  refine ⟨?_, ?_, rfl, rfl, rfl⟩
  · rfl
  · show ((start :: grown) ++ [start]).getLast? = some start
    rw [List.getLast?_append_cons]
    rfl

/-- Witness for lasso_closure_invariant at a concrete two-point drag. -/
theorem lasso_closure_invariant_witness :
    2 ≤ ([⟨1, 0⟩, ⟨1, 1⟩] : List Point).length ∧
    (strategyCompleteSelection .lasso
        (buildShape .lasso ⟨0, 0⟩ [⟨1, 0⟩, ⟨1, 1⟩]) ⟨0, 0⟩).points.head? =
      some ⟨0, 0⟩ :=
  ⟨by decide, (lasso_closure_invariant ⟨0, 0⟩ [⟨1, 0⟩, ⟨1, 1⟩] (by decide)).1⟩

/-- The cross term of the shoelace formula. -/
def cross (a b : Point) : ℚ := a.x * b.y - b.x * a.y

/-- Shoelace sum over consecutive point pairs, wrapping to `first`. -/
def shoelaceAux (first : Point) : List Point → ℚ
  | [] => 0
  | [q] => cross q first
  | q :: r :: rest => cross q r + shoelaceAux first (r :: rest)

/-- Signed area of the ring through the given points (shoelace formula). -/
def ringArea (ps : List Point) : ℚ :=
  match ps with
  | [] => 0
  | p :: _ => shoelaceAux p ps / 2

/-- C4 counterexample: for the lasso strategy, completeSelection on a shape
holding only the start point (3,4) does not synthesize any fixed-radius
circle or square — the completed ring is exactly the two-point ring
[(3,4), (3,4)], whose area is zero: precisely the zero-area ring the claim
says is avoided. -/
theorem lasso_degenerate_not_synthesized :
    (strategyCompleteSelection .lasso
        (strategyCreateShape .lasso ⟨3, 4⟩) ⟨3, 4⟩).points =
      [(⟨3, 4⟩ : Point), ⟨3, 4⟩] ∧
    ringArea (strategyCompleteSelection .lasso
        (strategyCreateShape .lasso ⟨3, 4⟩) ⟨3, 4⟩).points = 0 := by
  constructor
  · rfl
  · show ringArea ([⟨3, 4⟩] ++ [⟨3, 4⟩] : List Point) = 0
    norm_num [ringArea, shoelaceAux, cross]

/-! ## Provider-level selection completion (CanvasRenderingProvider
snapshot with the selection-shape registry)

completeSelectionShape is where the degenerate zero-movement drag is
actually handled: a one-point selection is replaced by a circle of radius
10 around the start; otherwise a lasso is closed and a path left open. -/

/-- A provider SelectionShape record: its type and accumulated points. -/
structure ProviderSelectionShape where
  type : DragMode
  points : List Point
deriving DecidableEq, Repr

/-- The provider's internal paper shape for a selection: a polyline or a
synthesized circle. -/
inductive PaperSel where
  | poly : List Point → Bool → PaperSel
  | circle : Point → ℚ → PaperSel
deriving DecidableEq, Repr

/-- completeSelectionShape from the canvas provider: a single-point
selection becomes a circle of radius 10 around the start; otherwise a
lasso is closed by lineTo(start) + closePath and a path stays open. -/
def canvasCompleteSelectionShape (shape : ProviderSelectionShape) (paperShape : PaperSel)
    (startPoint : Point) : PaperSel :=
  if shape.points.length == 1 then
    PaperSel.circle startPoint 10
  else if shape.type = DragMode.lasso then
    match paperShape with
    | PaperSel.poly qs _ => PaperSel.poly (qs ++ [startPoint]) true
    | other => other
  else paperShape

/-- C4 amended: the degenerate-drag synthesis lives in the rendering
provider, not the lasso strategy — the canvas provider's
completeSelectionShape replaces a selection that only ever held the start
point with a circle of fixed positive radius 10 around that start point,
for either selection type. -/
theorem provider_synthesizes_degenerate_circle (ty : DragMode) (start : Point) :
    canvasCompleteSelectionShape ⟨ty, [start]⟩ (PaperSel.poly [start] false) start =
      PaperSel.circle start 10 ∧ (0 : ℚ) < 10 := by
  constructor
  · rfl
  · norm_num

/-! ## ZoneSelector (provider-based snapshot)

The orchestrator's observable state and its public operations.  The
rendering provider's hit test, its registry of rendered zone shapes and the
geometric intersection test behind the strategies are abstracted into an
`Env`; callbacks are modelled as emitted events. -/


/-- A zone's geometry: a point or a polygon ring. -/
inductive Geometry where
  | point : Point → Geometry
  | polygon : List Point → Geometry
deriving DecidableEq, Repr

/-- A Zone from types.ts; `selected` is the only field the engine mutates. -/
structure Zone where
  id : String
  name : String
  category : String
  geometry : Geometry
  selected : Bool
deriving DecidableEq, Repr

/-- Callbacks invoked by the ZoneSelector, recorded as events. -/
inductive CallbackEvent where
  | selectionChanged : List Zone → CallbackEvent
  | categoryChanged : String → CallbackEvent
deriving DecidableEq, Repr

/-- The ZoneSelector's mutable fields.  `strategyMode` records which
strategy object `createSelectionStrategy` installed in
`this.selectionStrategy`; it always mirrors `dragMode`. -/
structure SelectorState where
  zones : List Zone
  currentCategory : String
  categories : List String
  dragMode : DragMode
  strategyMode : DragMode
  isDragging : Bool
  dragStart : Option Point
  selectionShape : Option SelShape
  clickedZoneId : Option String
  isShiftPressed : Bool
deriving DecidableEq, Repr

/-- The external collaborators of the selector: the provider's hit test,
the registry of rendered zone shapes (zoneShapes.get(id) succeeding), and
the geometric result of the active strategy's testIntersection for a given
selection shape and zone shape. -/
structure Env where
  hit : Point → Option String
  hasShape : String → Bool
  test : DragMode → SelShape → String → Bool

/-- toggleZoneSelection flips the selected flag of the first zone with the
given id, as the in-place mutation of the object found by Array.find does. -/
def toggleFirstById : List Zone → String → List Zone
  | [], _ => []
  | z :: zs, zoneId =>
    if z.id == zoneId then { z with selected := !z.selected } :: zs
    else z :: toggleFirstById zs zoneId

/-- toggleZoneSelection from ZoneSelector.ts: no-op when the id is unknown
or the zone is outside the current category; otherwise flip the zone's
selected flag and fire onSelectionChange with all selected zones. -/
def toggleZoneSelection (s : SelectorState) (zoneId : String) :
    SelectorState × List CallbackEvent :=
  match s.zones.find? (fun z => z.id == zoneId) with
  | none => (s, [])
  | some zone =>
    if zone.category ≠ s.currentCategory then (s, [])
    else
      let zones' := toggleFirstById s.zones zoneId
      ({ s with zones := zones' },
       [CallbackEvent.selectionChanged (zones'.filter (fun z => z.selected))])

/-- setCategory from ZoneSelector.ts: silently ignore unknown categories;
otherwise switch the filter and fire onCategoryChange. -/
def setCategory (s : SelectorState) (category : String) :
    SelectorState × List CallbackEvent :=
  if s.categories.contains category then
    ({ s with currentCategory := category }, [CallbackEvent.categoryChanged category])
  else (s, [])

/-- getSelectedZones from ZoneSelector.ts: all selected zones, regardless
of category. -/
def getSelectedZones (s : SelectorState) : List Zone :=
  s.zones.filter (fun z => z.selected)

/-- setDragMode from ZoneSelector.ts: store the mode and immediately
install a fresh strategy for it. -/
def setDragMode (s : SelectorState) (mode : DragMode) : SelectorState :=
  { s with dragMode := mode, strategyMode := mode }

/-- The condition under which selectZonesInShape flips a zone: current
category, rendered shape present, strategy test positive, not yet
selected. -/
def selectCond (env : Env) (s : SelectorState) (selection : SelShape) (z : Zone) : Bool :=
  z.category == s.currentCategory && env.hasShape z.id &&
    env.test s.strategyMode selection z.id && !z.selected

/-- selectZonesInShape from ZoneSelector.ts: select every current-category
zone whose rendered shape passes the strategy test; fire onSelectionChange
once, with all selected zones, only if some zone changed. -/
def selectZonesInShape (env : Env) (s : SelectorState) (selection : SelShape) :
    List Zone × List CallbackEvent :=
  let zones' := s.zones.map (fun z =>
    if selectCond env s selection z then { z with selected := true } else z)
  let selectionChanged := s.zones.any (fun z => selectCond env s selection z)
  (zones',
   if selectionChanged then
     [CallbackEvent.selectionChanged (zones'.filter (fun z => z.selected))]
   else [])

/-- The condition under which deselectZonesInShape flips a zone. -/
def deselectCond (env : Env) (s : SelectorState) (selection : SelShape) (z : Zone) : Bool :=
  z.category == s.currentCategory && env.hasShape z.id &&
    env.test s.strategyMode selection z.id && z.selected

/-- deselectZonesInShape from ZoneSelector.ts: the shift-drag counterpart
of selectZonesInShape. -/
def deselectZonesInShape (env : Env) (s : SelectorState) (selection : SelShape) :
    List Zone × List CallbackEvent :=
  let zones' := s.zones.map (fun z =>
    if deselectCond env s selection z then { z with selected := false } else z)
  let selectionChanged := s.zones.any (fun z => deselectCond env s selection z)
  (zones',
   if selectionChanged then
     [CallbackEvent.selectionChanged (zones'.filter (fun z => z.selected))]
   else [])

/-! ## Pointer-event state machine (setupEventHandlers)

Each handler returns the new state, the callback events it fired, a trace
of the strategy calls it dispatched (each tagged with the mode of the
strategy object that received the call) and whether the direct click-toggle
branch ran. -/

/-- The strategy operations dispatched through this.selectionStrategy. -/
inductive StratOp where
  | createShapeOp : StratOp
  | updateShapeOp : StratOp
  | applyStyleOp : StratOp
  | completeSelectionOp : StratOp
  | testIntersectionOp : StratOp
deriving DecidableEq, Repr

/-- Result of one event-handler invocation. -/
structure StepOut where
  state : SelectorState
  events : List CallbackEvent
  trace : List (StratOp × DragMode)
  clickToggled : Bool
deriving Repr

/-- onMouseDown: stage the drag start and the hit zone as a click
candidate; nothing is selected yet. -/
def handleMouseDown (env : Env) (s : SelectorState) (p : Point) : StepOut :=
  { state := { s with dragStart := some p, clickedZoneId := env.hit p },
    events := [], trace := [], clickToggled := false }

/-- onMouseMove: on the first move of a gesture, enter Dragging and create
the selection shape; while dragging, grow the shape toward the current
point; the style is (re)applied after both. -/
def handleMouseMove (env : Env) (s : SelectorState) (p : Point) : StepOut :=
  let firstBlock : SelectorState × List (StratOp × DragMode) :=
    if !s.isDragging then
      match s.dragStart with
      | some d =>
        ({ s with isDragging := true,
                  selectionShape := some (strategyCreateShape s.strategyMode d) },
         [(StratOp.createShapeOp, s.strategyMode), (StratOp.applyStyleOp, s.strategyMode)])
      | none => (s, [])
    else (s, [])
  let s1 := firstBlock.1
  let secondBlock : SelectorState × List (StratOp × DragMode) :=
    if s1.isDragging then
      match s1.dragStart, s1.selectionShape with
      | some d, some sh =>
        ({ s1 with selectionShape := some (strategyUpdateShape s1.strategyMode sh p d) },
         [(StratOp.updateShapeOp, s1.strategyMode), (StratOp.applyStyleOp, s1.strategyMode)])
      | _, _ => (s1, [])
    else (s1, [])
  { state := secondBlock.1, events := [],
    trace := firstBlock.2 ++ secondBlock.2, clickToggled := false }

/-- The testIntersection calls issued while sweeping the current-category
zones whose shapes are rendered. -/
def completionTestTrace (env : Env) (s : SelectorState) : List (StratOp × DragMode) :=
  ((s.zones.filter (fun z => z.category == s.currentCategory)).filter
      (fun z => env.hasShape z.id)).map
    (fun _ => (StratOp.testIntersectionOp, s.strategyMode))

/-- completeDragSelection from ZoneSelector.ts: complete the shape through
the installed strategy, then deselect (shift held) or select (otherwise)
the zones passing the strategy test. -/
def completeDragSelection (env : Env) (s : SelectorState) :
    SelectorState × List CallbackEvent × List (StratOp × DragMode) :=
  match s.selectionShape, s.dragStart with
  | some sh, some d =>
    let completed := strategyCompleteSelection s.strategyMode sh d
    let sWithCompleted := { s with selectionShape := some completed }
    let body :=
      if s.isShiftPressed then deselectZonesInShape env sWithCompleted completed
      else selectZonesInShape env sWithCompleted completed
    ({ sWithCompleted with zones := body.1 }, body.2,
     (StratOp.completeSelectionOp, s.strategyMode) :: completionTestTrace env sWithCompleted)
  | _, _ => (s, [], [])

/-- onMouseUp: finish a drag through completeDragSelection and discard the
shape; or, when no drag ever started, click-toggle the staged zone; then
reset the drag state. -/
def handleMouseUp (env : Env) (s : SelectorState) (_p : Point) : StepOut :=
  let branch : SelectorState × List CallbackEvent × List (StratOp × DragMode) × Bool :=
    if s.isDragging then
      match s.dragStart, s.selectionShape with
      | some _, some _ =>
        let r := completeDragSelection env s
        ({ r.1 with selectionShape := none }, r.2.1, r.2.2, false)
      | _, _ => (s, [], [], false)
    else
      match s.clickedZoneId with
      | some zoneId =>
        let r := toggleZoneSelection s zoneId
        (r.1, r.2, [], true)
      | none => (s, [], [], false)
  { state := { branch.1 with isDragging := false, dragStart := none, clickedZoneId := none },
    events := branch.2.1, trace := branch.2.2.1, clickToggled := branch.2.2.2 }

/-- The inputs driving the selector: provider pointer events, the shift
tracker's key events, and the public setDragMode call. -/
inductive InputEvent where
  | down : Point → InputEvent
  | move : Point → InputEvent
  | up : Point → InputEvent
  | setMode : DragMode → InputEvent
  | shiftKey : Bool → InputEvent
deriving DecidableEq, Repr

/-- Dispatch one input event. -/
def step (env : Env) (s : SelectorState) : InputEvent → StepOut
  | .down p => handleMouseDown env s p
  | .move p => handleMouseMove env s p
  | .up p => handleMouseUp env s p
  | .setMode m =>
    { state := setDragMode s m, events := [], trace := [], clickToggled := false }
  | .shiftKey b =>
    { state := { s with isShiftPressed := b }, events := [], trace := [], clickToggled := false }

/-- Result of running a whole input script. -/
structure RunOut where
  state : SelectorState
  events : List CallbackEvent
  trace : List (StratOp × DragMode)
  clickToggled : Bool
deriving Repr

/-- Run a script of input events, accumulating events, trace and whether
any direct click-toggle happened. -/
def runScript (env : Env) (s : SelectorState) : List InputEvent → RunOut
  | [] => ⟨s, [], [], false⟩
  | e :: es =>
    let o := step env s e
    let r := runScript env o.state es
    ⟨r.state, o.events ++ r.events, o.trace ++ r.trace, o.clickToggled || r.clickToggled⟩

/-! ## Lemmas about toggleFirstById -/

theorem toggleFirstById_length (zoneId : String) :
    ∀ zs : List Zone, (toggleFirstById zs zoneId).length = zs.length := by
  intro zs
  induction zs with
  | nil => rfl
  | cons z rest ih =>
    unfold toggleFirstById
    by_cases h : z.id == zoneId
    · simp [h]
    · simp [h, ih]

theorem toggleFirstById_spec (zoneId : String) :
    ∀ (zs : List Zone) (z : Zone), zs.find? (fun w => w.id == zoneId) = some z →
      ∃ i, ∃ hi : i < zs.length, ∃ hi' : i < (toggleFirstById zs zoneId).length,
        zs[i] = z ∧
        (toggleFirstById zs zoneId)[i] = { z with selected := !z.selected } ∧
        ∀ j (hj : j < zs.length) (hj' : j < (toggleFirstById zs zoneId).length),
          j ≠ i → (toggleFirstById zs zoneId)[j] = zs[j] := by
  intro zs
  induction zs with
  | nil => intro z h; simp [List.find?] at h
  | cons a rest ih =>
    intro z h
    by_cases ha : a.id == zoneId
    · have hz : z = a := by
        rw [@List.find?_cons_of_pos _ (fun w => w.id == zoneId) a rest ha] at h
        exact (Option.some_inj.mp h).symm
      subst hz
      refine ⟨0, by simp, ?_, rfl, ?_, ?_⟩
      · simp [toggleFirstById, ha]
      · simp [toggleFirstById, ha]
      · intro j hj hj' hj0
        obtain ⟨k, rfl⟩ : ∃ k, j = k + 1 := ⟨j - 1, by omega⟩
        simp [toggleFirstById, ha]
    · rw [@List.find?_cons_of_neg _ (fun w => w.id == zoneId) a rest ha] at h
      obtain ⟨i, hi, hi', hget, hget', hrest⟩ := ih z h
      refine ⟨i + 1, by simpa using hi, ?_, by simpa using hget, ?_, ?_⟩
      · simp [toggleFirstById, ha]
        omega
      · simp [toggleFirstById, ha]
        exact hget'
      · intro j hj hj' hj0
        match j with
        | 0 => simp [toggleFirstById, ha]
        | k + 1 =>
          have hk : k ≠ i := by omega
          have hk1 : k < rest.length := by simpa using hj
          have hk2 : k < (toggleFirstById rest zoneId).length := by
            rw [toggleFirstById_length]; exact hk1
          have := hrest k hk1 hk2 hk
          simpa [toggleFirstById, ha] using this

theorem toggleFirstById_involution (zoneId : String) :
    ∀ zs : List Zone, toggleFirstById (toggleFirstById zs zoneId) zoneId = zs := by
  intro zs
  induction zs with
  | nil => rfl
  | cons z rest ih =>
    by_cases h : z.id == zoneId
    · simp [toggleFirstById, h]
    · simp [toggleFirstById, h, ih]

theorem find?_toggleFirstById (zoneId : String) :
    ∀ zs : List Zone,
      (toggleFirstById zs zoneId).find? (fun w => w.id == zoneId) =
        (zs.find? (fun w => w.id == zoneId)).map
          (fun z => { z with selected := !z.selected }) := by
  intro zs
  induction zs with
  | nil => rfl
  | cons z rest ih =>
    by_cases h : z.id == zoneId
    · simp [toggleFirstById, h, List.find?_cons_of_pos]
    · rw [toggleFirstById]
      simp only [h, Bool.false_eq_true, if_false]
      rw [@List.find?_cons_of_neg _ (fun w => w.id == zoneId) z
            (toggleFirstById rest zoneId) h,
          @List.find?_cons_of_neg _ (fun w => w.id == zoneId) z rest h, ih]

/-- C1: toggleZoneSelection with an unknown id, or the id of a zone outside
the current category, is a silent no-op — the state is untouched and no
callback fires; with the id of a current-category zone it flips exactly
that zone's selected flag and fires onSelectionChange once with the full
selected set. -/
theorem toggleZoneSelection_spec (s : SelectorState) (zoneId : String) :
    (s.zones.find? (fun w => w.id == zoneId) = none →
      toggleZoneSelection s zoneId = (s, [])) ∧
    (∀ z, s.zones.find? (fun w => w.id == zoneId) = some z →
      z.category ≠ s.currentCategory → toggleZoneSelection s zoneId = (s, [])) ∧
    (∀ z, s.zones.find? (fun w => w.id == zoneId) = some z →
      z.category = s.currentCategory →
      (toggleZoneSelection s zoneId).2 =
        [CallbackEvent.selectionChanged
          ((toggleZoneSelection s zoneId).1.zones.filter (fun w => w.selected))] ∧
      (toggleZoneSelection s zoneId).1.zones.length = s.zones.length ∧
      (toggleZoneSelection s zoneId).1.currentCategory = s.currentCategory ∧
      ∃ i, ∃ hi : i < s.zones.length,
        ∃ hi' : i < (toggleZoneSelection s zoneId).1.zones.length,
        s.zones[i] = z ∧
        (toggleZoneSelection s zoneId).1.zones[i] = { z with selected := !z.selected } ∧
        ∀ j (hj : j < s.zones.length)
          (hj' : j < (toggleZoneSelection s zoneId).1.zones.length),
          j ≠ i → (toggleZoneSelection s zoneId).1.zones[j] = s.zones[j]) := by
  refine ⟨?_, ?_, ?_⟩
  · intro h
    unfold toggleZoneSelection
    rw [h]
  · intro z h hne
    unfold toggleZoneSelection
    rw [h]
    simp [hne]
  · intro z h hc
    have hred : toggleZoneSelection s zoneId =
        ({ s with zones := toggleFirstById s.zones zoneId },
         [CallbackEvent.selectionChanged
           ((toggleFirstById s.zones zoneId).filter (fun w => w.selected))]) := by
      unfold toggleZoneSelection
      rw [h]
      simp [hc]
    rw [hred]
    refine ⟨rfl, toggleFirstById_length zoneId s.zones, rfl, ?_⟩
    exact toggleFirstById_spec zoneId s.zones z h

/-- A small concrete selector state used by witnesses: two zones in
category a, one in category b, current category a. -/
def wZoneA1 : Zone := ⟨"a1", "Zone A1", "a", Geometry.point ⟨0, 0⟩, false⟩

def wZoneA2 : Zone := ⟨"a2", "Zone A2", "a", Geometry.point ⟨1, 1⟩, true⟩

def wZoneB1 : Zone := ⟨"b1", "Zone B1", "b", Geometry.point ⟨2, 2⟩, false⟩

def wState : SelectorState :=
  { zones := [wZoneA1, wZoneA2, wZoneB1]
    currentCategory := "a"
    categories := ["a", "b"]
    dragMode := DragMode.lasso
    strategyMode := DragMode.lasso
    isDragging := false
    dragStart := none
    selectionShape := none
    clickedZoneId := none
    isShiftPressed := false }

/-- Witness for toggleZoneSelection_spec: an unknown id and a
wrong-category id are no-ops, and toggling a current-category zone flips
it and fires the callback. -/
theorem toggleZoneSelection_spec_witness :
    toggleZoneSelection wState "nope" = (wState, []) ∧
    toggleZoneSelection wState "b1" = (wState, []) ∧
    (toggleZoneSelection wState "a1").2 =
      [CallbackEvent.selectionChanged
        ((toggleZoneSelection wState "a1").1.zones.filter (fun w => w.selected))] :=
  ⟨(toggleZoneSelection_spec wState "nope").1 (by decide),
   (toggleZoneSelection_spec wState "b1").2.1 wZoneB1 (by decide) (by decide),
   ((toggleZoneSelection_spec wState "a1").2.2 wZoneA1 (by decide) (by decide)).1⟩

/-- C10: for a known id in the current category, toggleZoneSelection is an
involution — two successive calls restore every zone's selected flag — and
each call fires the selection-changed callback exactly once. -/
theorem toggleZoneSelection_involution (s : SelectorState) (zoneId : String) (z : Zone)
    (hf : s.zones.find? (fun w => w.id == zoneId) = some z)
    (hc : z.category = s.currentCategory) :
    (toggleZoneSelection (toggleZoneSelection s zoneId).1 zoneId).1.zones = s.zones ∧
    (toggleZoneSelection s zoneId).2.length = 1 ∧
    (toggleZoneSelection (toggleZoneSelection s zoneId).1 zoneId).2.length = 1 := by
  have h1 : toggleZoneSelection s zoneId =
      ({ s with zones := toggleFirstById s.zones zoneId },
       [CallbackEvent.selectionChanged
         ((toggleFirstById s.zones zoneId).filter (fun w => w.selected))]) := by
    unfold toggleZoneSelection
    rw [hf]
    simp [hc]
  have hf2 : (toggleFirstById s.zones zoneId).find? (fun w => w.id == zoneId) =
      some { z with selected := !z.selected } := by
    rw [find?_toggleFirstById, hf]
    rfl
  have h2 : toggleZoneSelection { s with zones := toggleFirstById s.zones zoneId } zoneId =
      ({ s with zones := toggleFirstById (toggleFirstById s.zones zoneId) zoneId },
       [CallbackEvent.selectionChanged
         ((toggleFirstById (toggleFirstById s.zones zoneId) zoneId).filter
           (fun w => w.selected))]) := by
    unfold toggleZoneSelection
    rw [hf2]
    simp [hc]
  rw [h1]
  simp only [h2]
  exact ⟨toggleFirstById_involution zoneId s.zones, rfl, rfl⟩

/-- Witness for toggleZoneSelection_involution at the concrete state. -/
theorem toggleZoneSelection_involution_witness :
    (toggleZoneSelection (toggleZoneSelection wState "a1").1 "a1").1.zones = wState.zones ∧
    (toggleZoneSelection wState "a1").2.length = 1 :=
  ⟨(toggleZoneSelection_involution wState "a1" wZoneA1 (by decide) (by decide)).1,
   (toggleZoneSelection_involution wState "a1" wZoneA1 (by decide) (by decide)).2.1⟩

/-- C8: setCategory with a known category changes only the category filter
— no zone's selected flag changes, and onCategoryChange fires; with an
unknown category it is a silent no-op; two successive switches (away and
back) leave every zone untouched; and getSelectedZones returns selected
zones of every category, not only the current one. -/
theorem setCategory_preserves_selection (s : SelectorState) (c c2 : String) :
    (s.categories.contains c = true →
      (setCategory s c).1.zones = s.zones ∧
      (setCategory s c).1.currentCategory = c ∧
      (setCategory s c).2 = [CallbackEvent.categoryChanged c]) ∧
    (s.categories.contains c = false → setCategory s c = (s, [])) ∧
    (setCategory (setCategory s c).1 c2).1.zones = s.zones ∧
    (∀ z ∈ s.zones, z.selected = true → z ∈ getSelectedZones s) ∧
    (∀ z ∈ s.zones, z.selected = true →
      z ∈ getSelectedZones (setCategory (setCategory s c).1 c2).1) := by
  have e1 : ∀ (t : SelectorState) (d : String), (setCategory t d).1.zones = t.zones := by
    intro t d
    unfold setCategory
    split <;> rfl
  refine ⟨?_, ?_, ?_, ?_, ?_⟩
  · intro h
    have h' : c ∈ s.categories := by simpa using h
    simp [setCategory, h']
  · intro h
    have h' : ¬ c ∈ s.categories := by simpa using h
    simp [setCategory, h']
  · rw [e1, e1]
  · intro z hz hsel
    exact List.mem_filter.mpr ⟨hz, hsel⟩
  · intro z hz hsel
    unfold getSelectedZones
    rw [e1, e1]
    exact List.mem_filter.mpr ⟨hz, hsel⟩

/-- Witness for setCategory_preserves_selection: switching the concrete
state to category b and back to a keeps the selected zone a2 selected and
never touches the zone list; an unknown category is a no-op. -/
theorem setCategory_preserves_selection_witness :
    (setCategory (setCategory wState "b").1 "a").1.zones = wState.zones ∧
    wZoneA2 ∈ getSelectedZones (setCategory (setCategory wState "b").1 "a").1 ∧
    setCategory wState "zzz" = (wState, []) :=
  ⟨(setCategory_preserves_selection wState "b" "a").2.2.1,
   (setCategory_preserves_selection wState "b" "a").2.2.2.2 wZoneA2 (by decide) (by decide),
   (setCategory_preserves_selection wState "zzz" "a").2.1 (by decide)⟩

/-! ## Drag-completion semantics -/

/-- The claim-level pass condition: the zone is in the current category,
its shape is rendered, and the installed strategy's intersection test
succeeds against the completed selection shape. -/
def dragPass (env : Env) (s : SelectorState) (sh : SelShape) (d : Point) (z : Zone) : Bool :=
  z.category == s.currentCategory && env.hasShape z.id &&
    env.test s.strategyMode (strategyCompleteSelection s.strategyMode sh d) z.id

theorem deselectZonesInShape_fst (env : Env) (s : SelectorState) (sel : SelShape) :
    (deselectZonesInShape env s sel).1 =
      s.zones.map (fun z =>
        if deselectCond env s sel z then { z with selected := false } else z) := rfl

theorem selectZonesInShape_fst (env : Env) (s : SelectorState) (sel : SelShape) :
    (selectZonesInShape env s sel).1 =
      s.zones.map (fun z =>
        if selectCond env s sel z then { z with selected := true } else z) := rfl

theorem deselectZonesInShape_snd_pos (env : Env) (s : SelectorState) (sel : SelShape)
    (h : (s.zones.any (fun z => deselectCond env s sel z)) = true) :
    (deselectZonesInShape env s sel).2 =
      [CallbackEvent.selectionChanged
        ((deselectZonesInShape env s sel).1.filter (fun z => z.selected))] := by
  unfold deselectZonesInShape
  dsimp only
  rw [if_pos h]

theorem deselectZonesInShape_snd_neg (env : Env) (s : SelectorState) (sel : SelShape)
    (h : ¬ (s.zones.any (fun z => deselectCond env s sel z)) = true) :
    (deselectZonesInShape env s sel).2 = [] := by
  unfold deselectZonesInShape
  dsimp only
  rw [if_neg h]

theorem selectZonesInShape_snd_pos (env : Env) (s : SelectorState) (sel : SelShape)
    (h : (s.zones.any (fun z => selectCond env s sel z)) = true) :
    (selectZonesInShape env s sel).2 =
      [CallbackEvent.selectionChanged
        ((selectZonesInShape env s sel).1.filter (fun z => z.selected))] := by
  unfold selectZonesInShape
  dsimp only
  rw [if_pos h]

theorem selectZonesInShape_snd_neg (env : Env) (s : SelectorState) (sel : SelShape)
    (h : ¬ (s.zones.any (fun z => selectCond env s sel z)) = true) :
    (selectZonesInShape env s sel).2 = [] := by
  unfold selectZonesInShape
  dsimp only
  rw [if_neg h]

theorem handleMouseUp_dragging (env : Env) (s : SelectorState) (q d : Point) (sh : SelShape)
    (h1 : s.isDragging = true) (h2 : s.dragStart = some d) (h3 : s.selectionShape = some sh) :
    handleMouseUp env s q =
      { state := { s with
          zones := (if s.isShiftPressed then
              deselectZonesInShape env s (strategyCompleteSelection s.strategyMode sh d)
            else
              selectZonesInShape env s (strategyCompleteSelection s.strategyMode sh d)).1,
          selectionShape := none, isDragging := false, dragStart := none,
          clickedZoneId := none },
        events := (if s.isShiftPressed then
            deselectZonesInShape env s (strategyCompleteSelection s.strategyMode sh d)
          else
            selectZonesInShape env s (strategyCompleteSelection s.strategyMode sh d)).2,
        trace := (StratOp.completeSelectionOp, s.strategyMode) ::
          completionTestTrace env s,
        clickToggled := false } := by
  unfold handleMouseUp completeDragSelection
  rw [h1, h2, h3]
  by_cases hs : s.isShiftPressed = true
  · simp only [hs, if_true]
    rfl
  · simp only [Bool.not_eq_true] at hs
    simp only [hs, Bool.false_eq_true, if_false]
    rfl

/-- C2: completing a drag (pointer-up while dragging) sets the selected
flag of every current-category zone whose rendered shape passes the
installed strategy's test against the completed shape — to false when the
modifier is held, to true otherwise — leaves all other zones untouched,
never click-toggles, and fires the selection-changed callback at most once,
with the full resulting selected set, exactly when some zone's flag
actually changed. -/
theorem drag_completion_semantics (env : Env) (s : SelectorState) (q d : Point) (sh : SelShape)
    (h1 : s.isDragging = true) (h2 : s.dragStart = some d) (h3 : s.selectionShape = some sh) :
    (handleMouseUp env s q).clickToggled = false ∧
    (handleMouseUp env s q).state.zones.length = s.zones.length ∧
    (∀ i (hi : i < s.zones.length) (hi' : i < (handleMouseUp env s q).state.zones.length),
      (dragPass env s sh d s.zones[i] = true →
        ((handleMouseUp env s q).state.zones[i]).selected = !s.isShiftPressed ∧
        ((handleMouseUp env s q).state.zones[i]).id = (s.zones[i]).id ∧
        ((handleMouseUp env s q).state.zones[i]).category = (s.zones[i]).category) ∧
      (dragPass env s sh d s.zones[i] = false →
        (handleMouseUp env s q).state.zones[i] = s.zones[i])) ∧
    (handleMouseUp env s q).events.length ≤ 1 ∧
    ((handleMouseUp env s q).events ≠ [] →
      (handleMouseUp env s q).events = [CallbackEvent.selectionChanged
        ((handleMouseUp env s q).state.zones.filter (fun z => z.selected))]) ∧
    ((handleMouseUp env s q).events ≠ [] ↔ ∃ i, ∃ hi : i < s.zones.length,
      dragPass env s sh d s.zones[i] = true ∧
      (s.zones[i]).selected = s.isShiftPressed) := by
  rw [handleMouseUp_dragging env s q d sh h1 h2 h3]
  by_cases hs : s.isShiftPressed = true
  · simp only [hs, if_true, Bool.not_true]
    refine ⟨by trivial, ?_, ?_, ?_, ?_, ?_⟩
    · show (deselectZonesInShape env s
          (strategyCompleteSelection s.strategyMode sh d)).1.length = s.zones.length
      rw [deselectZonesInShape_fst, List.length_map]
    · intro i hi hi'
      have hz : (deselectZonesInShape env s
          (strategyCompleteSelection s.strategyMode sh d)).1[i] =
          if (dragPass env s sh d s.zones[i] && (s.zones[i]).selected) = true then
            { s.zones[i] with selected := false } else s.zones[i] := by
        exact List.getElem_map _
      constructor
      · intro hp
        rw [hz, hp]
        by_cases hsel : (s.zones[i]).selected = true
        · rw [hsel]
          simp
        · simp only [Bool.not_eq_true] at hsel
          rw [hsel]
          simp [hsel]
      · intro hp
        rw [hz, hp]
        simp
    · show (deselectZonesInShape env s
          (strategyCompleteSelection s.strategyMode sh d)).2.length ≤ 1
      by_cases hany : (s.zones.any (fun z =>
          deselectCond env s (strategyCompleteSelection s.strategyMode sh d) z)) = true
      · rw [deselectZonesInShape_snd_pos env s _ hany]
        simp
      · rw [deselectZonesInShape_snd_neg env s _ hany]
        simp
    · intro hne
      by_cases hany : (s.zones.any (fun z =>
          deselectCond env s (strategyCompleteSelection s.strategyMode sh d) z)) = true
      · exact deselectZonesInShape_snd_pos env s _ hany
      · exact absurd (deselectZonesInShape_snd_neg env s _ hany) hne
    · by_cases hany : (s.zones.any (fun z =>
          deselectCond env s (strategyCompleteSelection s.strategyMode sh d) z)) = true
      · constructor
        · intro _
          obtain ⟨z, hzmem, hcz⟩ := List.any_eq_true.mp hany
          obtain ⟨i, hi, rfl⟩ := List.mem_iff_getElem.mp hzmem
          have hcz' : (dragPass env s sh d s.zones[i] && (s.zones[i]).selected) = true := hcz
          rw [Bool.and_eq_true] at hcz'
          exact ⟨i, hi, hcz'.1, hcz'.2⟩
        · intro _
          rw [deselectZonesInShape_snd_pos env s _ hany]
          exact List.cons_ne_nil _ _
      · constructor
        · intro hne
          exact absurd (deselectZonesInShape_snd_neg env s _ hany) hne
        · rintro ⟨i, hi, hp, hsel⟩
          exfalso
          apply hany
          rw [List.any_eq_true]
          refine ⟨s.zones[i], List.getElem_mem hi, ?_⟩
          show (dragPass env s sh d s.zones[i] && (s.zones[i]).selected) = true
          rw [hp, hsel]
          rfl
  · simp only [Bool.not_eq_true] at hs
    simp only [hs, Bool.false_eq_true, if_false, Bool.not_false]
    refine ⟨by trivial, ?_, ?_, ?_, ?_, ?_⟩
    · show (selectZonesInShape env s
          (strategyCompleteSelection s.strategyMode sh d)).1.length = s.zones.length
      rw [selectZonesInShape_fst, List.length_map]
    · intro i hi hi'
      have hz : (selectZonesInShape env s
          (strategyCompleteSelection s.strategyMode sh d)).1[i] =
          if (dragPass env s sh d s.zones[i] && !(s.zones[i]).selected) = true then
            { s.zones[i] with selected := true } else s.zones[i] := by
        exact List.getElem_map _
      constructor
      · intro hp
        rw [hz, hp]
        by_cases hsel : (s.zones[i]).selected = true
        · rw [hsel]
          simp [hsel]
        · simp only [Bool.not_eq_true] at hsel
          rw [hsel]
          simp
      · intro hp
        rw [hz, hp]
        simp
    · show (selectZonesInShape env s
          (strategyCompleteSelection s.strategyMode sh d)).2.length ≤ 1
      by_cases hany : (s.zones.any (fun z =>
          selectCond env s (strategyCompleteSelection s.strategyMode sh d) z)) = true
      · rw [selectZonesInShape_snd_pos env s _ hany]
        simp
      · rw [selectZonesInShape_snd_neg env s _ hany]
        simp
    · intro hne
      by_cases hany : (s.zones.any (fun z =>
          selectCond env s (strategyCompleteSelection s.strategyMode sh d) z)) = true
      · exact selectZonesInShape_snd_pos env s _ hany
      · exact absurd (selectZonesInShape_snd_neg env s _ hany) hne
    · by_cases hany : (s.zones.any (fun z =>
          selectCond env s (strategyCompleteSelection s.strategyMode sh d) z)) = true
      · constructor
        · intro _
          obtain ⟨z, hzmem, hcz⟩ := List.any_eq_true.mp hany
          obtain ⟨i, hi, rfl⟩ := List.mem_iff_getElem.mp hzmem
          have hcz' : (dragPass env s sh d s.zones[i] && !(s.zones[i]).selected) = true := hcz
          rw [Bool.and_eq_true, Bool.not_eq_true'] at hcz'
          exact ⟨i, hi, hcz'.1, hcz'.2⟩
        · intro _
          rw [selectZonesInShape_snd_pos env s _ hany]
          exact List.cons_ne_nil _ _
      · constructor
        · intro hne
          exact absurd (selectZonesInShape_snd_neg env s _ hany) hne
        · rintro ⟨i, hi, hp, hsel⟩
          exfalso
          apply hany
          rw [List.any_eq_true]
          refine ⟨s.zones[i], List.getElem_mem hi, ?_⟩
          show (dragPass env s sh d s.zones[i] && !(s.zones[i]).selected) = true
          rw [hp, hsel]
          rfl

/-- An environment whose strategy test marks exactly zone a1. -/
def wEnvSel : Env :=
  { hit := fun _ => none
    hasShape := fun _ => true
    test := fun _ _ zoneId => zoneId == "a1" }

/-- The concrete state mid-drag: dragging from the origin with a two-point
lasso polyline. -/
def wDragState : SelectorState :=
  { wState with
    isDragging := true
    dragStart := some ⟨0, 0⟩
    selectionShape := some ⟨[⟨0, 0⟩, ⟨5, 5⟩], false⟩ }

/-- Witness for drag_completion_semantics at the concrete dragging state. -/
theorem drag_completion_semantics_witness :
    (handleMouseUp wEnvSel wDragState ⟨5, 5⟩).clickToggled = false ∧
    (handleMouseUp wEnvSel wDragState ⟨5, 5⟩).state.zones.length = wDragState.zones.length :=
  ⟨(drag_completion_semantics wEnvSel wDragState ⟨5, 5⟩ ⟨0, 0⟩
      ⟨[⟨0, 0⟩, ⟨5, 5⟩], false⟩ rfl rfl rfl).1,
   (drag_completion_semantics wEnvSel wDragState ⟨5, 5⟩ ⟨0, 0⟩
      ⟨[⟨0, 0⟩, ⟨5, 5⟩], false⟩ rfl rfl rfl).2.1⟩

/-! ## Whole-gesture runs -/

theorem dragUpdate_preserves_nonpassing (env : Env) (s : SelectorState) (sh : SelShape)
    (d : Point) (i : ℕ) (hi : i < s.zones.length)
    (hp : dragPass env s sh d s.zones[i] = false)
    (hi' : i < ((if s.isShiftPressed then
        deselectZonesInShape env s (strategyCompleteSelection s.strategyMode sh d)
      else
        selectZonesInShape env s (strategyCompleteSelection s.strategyMode sh d)).1).length) :
    ((if s.isShiftPressed then
        deselectZonesInShape env s (strategyCompleteSelection s.strategyMode sh d)
      else
        selectZonesInShape env s (strategyCompleteSelection s.strategyMode sh d)).1)[i] =
      s.zones[i] := by
  by_cases hs : s.isShiftPressed = true
  · simp only [hs, if_true] at hi' ⊢
    have hz : (deselectZonesInShape env s
        (strategyCompleteSelection s.strategyMode sh d)).1[i] =
        if (dragPass env s sh d s.zones[i] && (s.zones[i]).selected) = true then
          { s.zones[i] with selected := false } else s.zones[i] :=
      List.getElem_map _
    rw [hz, hp]
    simp
  · simp only [Bool.not_eq_true] at hs
    simp only [hs, Bool.false_eq_true, if_false] at hi' ⊢
    have hz : (selectZonesInShape env s
        (strategyCompleteSelection s.strategyMode sh d)).1[i] =
        if (dragPass env s sh d s.zones[i] && !(s.zones[i]).selected) = true then
          { s.zones[i] with selected := true } else s.zones[i] :=
      List.getElem_map _
    rw [hz, hp]
    simp

theorem runScript_append (env : Env) :
    ∀ (l1 l2 : List InputEvent) (s : SelectorState),
      runScript env s (l1 ++ l2) =
        ⟨(runScript env (runScript env s l1).state l2).state,
         (runScript env s l1).events ++ (runScript env (runScript env s l1).state l2).events,
         (runScript env s l1).trace ++ (runScript env (runScript env s l1).state l2).trace,
         (runScript env s l1).clickToggled ||
           (runScript env (runScript env s l1).state l2).clickToggled⟩ := by
  intro l1
  induction l1 with
  | nil =>
    intro l2 s
    show runScript env s l2 = _
    simp only [runScript, List.nil_append, Bool.false_or]
  | cons e es ih =>
    intro l2 s
    rw [List.cons_append]
    simp only [runScript]
    rw [ih l2 (step env s e).state]
    simp [List.append_assoc, Bool.or_assoc]

theorem step_move_mid (env : Env) (s : SelectorState) (m d : Point) (sh : SelShape)
    (h1 : s.isDragging = true) (h2 : s.dragStart = some d)
    (h3 : s.selectionShape = some sh) :
    (step env s (InputEvent.move m)).state =
      { s with selectionShape := some ⟨sh.points ++ [m], sh.closed⟩ } ∧
    (step env s (InputEvent.move m)).events = [] ∧
    (step env s (InputEvent.move m)).clickToggled = false := by
  show (handleMouseMove env s m).state = _ ∧ (handleMouseMove env s m).events = _ ∧
    (handleMouseMove env s m).clickToggled = _
  unfold handleMouseMove
  simp only [h1, h2, h3, Bool.not_true, Bool.false_eq_true, if_false, if_true]
  refine ⟨?_, ?_, ?_⟩ <;> first | rfl | trivial

theorem runScript_moves_mid (env : Env) (d : Point) :
    ∀ (ms : List Point) (s : SelectorState) (sh : SelShape),
      s.isDragging = true → s.dragStart = some d → s.selectionShape = some sh →
      (runScript env s (ms.map InputEvent.move)).state =
        { s with selectionShape := some ⟨sh.points ++ ms, sh.closed⟩ } ∧
      (runScript env s (ms.map InputEvent.move)).events = [] ∧
      (runScript env s (ms.map InputEvent.move)).clickToggled = false := by
  intro ms
  induction ms with
  | nil =>
    intro s sh h1 h2 h3
    refine ⟨?_, rfl, rfl⟩
    show s = _
    rw [List.append_nil]
    show s = { s with selectionShape := some sh }
    rw [← h3]
  | cons m rest ih =>
    intro s sh h1 h2 h3
    obtain ⟨hst, hev, hct⟩ := step_move_mid env s m d sh h1 h2 h3
    have hmid := ih (step env s (InputEvent.move m)).state ⟨sh.points ++ [m], sh.closed⟩
      (by rw [hst]; exact h1) (by rw [hst]; exact h2) (by rw [hst])
    show (runScript env (step env s (InputEvent.move m)).state
        (rest.map InputEvent.move)).state = _ ∧
      (step env s (InputEvent.move m)).events ++
        (runScript env (step env s (InputEvent.move m)).state
          (rest.map InputEvent.move)).events = [] ∧
      ((step env s (InputEvent.move m)).clickToggled ||
        (runScript env (step env s (InputEvent.move m)).state
          (rest.map InputEvent.move)).clickToggled) = false
    refine ⟨?_, ?_, ?_⟩
    · rw [hmid.1, hst]
      show ({ s with selectionShape := some ⟨(sh.points ++ [m]) ++ rest, sh.closed⟩ }
          : SelectorState) = _
      rw [List.append_assoc]
      rfl
    · rw [hev, hmid.2.1]
      rfl
    · rw [hct, hmid.2.2]
      rfl

theorem dragUpdate_length (env : Env) (s : SelectorState) (sh : SelShape) (d : Point) :
    ((if s.isShiftPressed then
        deselectZonesInShape env s (strategyCompleteSelection s.strategyMode sh d)
      else
        selectZonesInShape env s (strategyCompleteSelection s.strategyMode sh d)).1).length =
      s.zones.length := by
  by_cases hs : s.isShiftPressed = true
  · simp only [hs, if_true]
    rw [deselectZonesInShape_fst, List.length_map]
  · simp only [Bool.not_eq_true] at hs
    simp only [hs, Bool.false_eq_true, if_false]
    rw [selectZonesInShape_fst, List.length_map]

/-- The selector state reached after pointer-down at `p` and the pointer
moves that accumulated `pts` into the selection polyline. -/
def midDragState (env : Env) (s0 : SelectorState) (p : Point) (pts : List Point) :
    SelectorState :=
  { s0 with
    dragStart := some p
    clickedZoneId := env.hit p
    isDragging := true
    selectionShape := some ⟨pts, false⟩ }

theorem runScript_down_move (env : Env) (s0 : SelectorState) (p m : Point)
    (h0 : s0.isDragging = false) :
    (runScript env s0 [InputEvent.down p, InputEvent.move m]).state =
      midDragState env s0 p [p, m] ∧
    (runScript env s0 [InputEvent.down p, InputEvent.move m]).events = [] ∧
    (runScript env s0 [InputEvent.down p, InputEvent.move m]).clickToggled = false := by
  refine ⟨?_, rfl, ?_⟩
  · show (handleMouseMove env
      { s0 with dragStart := some p, clickedZoneId := env.hit p } m).state = _
    unfold handleMouseMove
    simp only [h0, Bool.not_false, if_true]
    rfl
  · show (false || ((handleMouseMove env
      { s0 with dragStart := some p, clickedZoneId := env.hit p } m).clickToggled
        || false)) = false
    rfl

/-- C9: in any gesture with at least one pointer-move between down and up,
the pointer-up never takes the direct click-toggle branch, the zone count
is preserved, and any zone failing the installed strategy's test against
the completed drag shape (or outside the current category) is untouched —
flags can change only through the containment/intersection path. -/
theorem drag_never_click_toggles (env : Env) (s0 : SelectorState) (p q : Point)
    (moves : List Point) (h0 : s0.isDragging = false) (hm : moves ≠ []) :
    (runScript env s0
        (InputEvent.down p :: (moves.map InputEvent.move ++ [InputEvent.up q]))).clickToggled
      = false ∧
    (runScript env s0
        (InputEvent.down p :: (moves.map InputEvent.move ++ [InputEvent.up q]))).state.zones.length
      = s0.zones.length ∧
    ∀ i (hi : i < s0.zones.length)
      (hi' : i < (runScript env s0
        (InputEvent.down p ::
          (moves.map InputEvent.move ++ [InputEvent.up q]))).state.zones.length),
      dragPass env s0 ⟨p :: moves, false⟩ p s0.zones[i] = false →
      (runScript env s0
        (InputEvent.down p :: (moves.map InputEvent.move ++ [InputEvent.up q]))).state.zones[i]
        = s0.zones[i] := by
  obtain ⟨m, rest, rfl⟩ := List.exists_cons_of_ne_nil hm
  have hscript : InputEvent.down p :: ((m :: rest).map InputEvent.move ++ [InputEvent.up q]) =
      [InputEvent.down p, InputEvent.move m] ++
        (rest.map InputEvent.move ++ [InputEvent.up q]) := by
    simp
  obtain ⟨hdm_st, hdm_ev, hdm_ct⟩ := runScript_down_move env s0 p m h0
  have hmoves := runScript_moves_mid env p rest (midDragState env s0 p [p, m])
    ⟨[p, m], false⟩ rfl rfl rfl
  have hupfull := handleMouseUp_dragging env
    (midDragState env s0 p ([p, m] ++ rest)) q p ⟨p :: m :: rest, false⟩ rfl rfl rfl
  have hmovesState : (runScript env (midDragState env s0 p [p, m])
      (rest.map InputEvent.move)).state = midDragState env s0 p ([p, m] ++ rest) := by
    rw [hmoves.1]
    rfl
  have hrun : runScript env s0
      (InputEvent.down p :: ((m :: rest).map InputEvent.move ++ [InputEvent.up q])) =
      ⟨(runScript env (runScript env (runScript env s0
          [InputEvent.down p, InputEvent.move m]).state
            (rest.map InputEvent.move)).state [InputEvent.up q]).state,
       (runScript env s0 [InputEvent.down p, InputEvent.move m]).events ++
         ((runScript env (runScript env s0
             [InputEvent.down p, InputEvent.move m]).state
              (rest.map InputEvent.move)).events ++
          ((runScript env (runScript env (runScript env s0
              [InputEvent.down p, InputEvent.move m]).state
               (rest.map InputEvent.move)).state [InputEvent.up q]).events)),
       (runScript env s0 [InputEvent.down p, InputEvent.move m]).trace ++
         ((runScript env (runScript env s0
             [InputEvent.down p, InputEvent.move m]).state
              (rest.map InputEvent.move)).trace ++
          ((runScript env (runScript env (runScript env s0
              [InputEvent.down p, InputEvent.move m]).state
               (rest.map InputEvent.move)).state [InputEvent.up q]).trace)),
       (runScript env s0 [InputEvent.down p, InputEvent.move m]).clickToggled ||
         ((runScript env (runScript env s0
             [InputEvent.down p, InputEvent.move m]).state
              (rest.map InputEvent.move)).clickToggled ||
          ((runScript env (runScript env (runScript env s0
              [InputEvent.down p, InputEvent.move m]).state
               (rest.map InputEvent.move)).state [InputEvent.up q]).clickToggled))⟩ := by
    rw [hscript, runScript_append env [InputEvent.down p, InputEvent.move m]
      (rest.map InputEvent.move ++ [InputEvent.up q]) s0,
      runScript_append env (rest.map InputEvent.move) [InputEvent.up q]
        (runScript env s0 [InputEvent.down p, InputEvent.move m]).state]
  have hstate : (runScript env s0
      (InputEvent.down p :: ((m :: rest).map InputEvent.move ++ [InputEvent.up q]))).state =
      (handleMouseUp env (midDragState env s0 p ([p, m] ++ rest)) q).state := by
    rw [hrun]
    show (runScript env (runScript env (runScript env s0
        [InputEvent.down p, InputEvent.move m]).state
          (rest.map InputEvent.move)).state [InputEvent.up q]).state = _
    rw [hdm_st, hmovesState]
    show (step env (midDragState env s0 p ([p, m] ++ rest)) (InputEvent.up q)).state = _
    rfl
  have hct : (runScript env s0
      (InputEvent.down p :: ((m :: rest).map InputEvent.move ++ [InputEvent.up q]))).clickToggled
      = false := by
    rw [hrun]
    show ((runScript env s0 [InputEvent.down p, InputEvent.move m]).clickToggled ||
      _) = false
    rw [hdm_ct, hdm_st, hmoves.2.2, hmovesState]
    show (false || (false || ((step env (midDragState env s0 p ([p, m] ++ rest))
      (InputEvent.up q)).clickToggled || false))) = false
    show (false || (false || ((handleMouseUp env (midDragState env s0 p ([p, m] ++ rest))
      q).clickToggled || false))) = false
    rw [hupfull]
    rfl
  refine ⟨hct, ?_, ?_⟩
  · rw [hstate, hupfull]
    exact dragUpdate_length env (midDragState env s0 p ([p, m] ++ rest))
      ⟨p :: m :: rest, false⟩ p
  · intro i hi hi' hp
    simp only [hstate, hupfull] at hi' ⊢
    exact dragUpdate_preserves_nonpassing env
      (midDragState env s0 p ([p, m] ++ rest)) ⟨p :: m :: rest, false⟩ p i hi hp hi'

/-- Witness for drag_never_click_toggles: a one-move gesture over the
concrete state performs no direct click-toggle. -/
theorem drag_never_click_toggles_witness :
    (runScript wEnvSel wState
      (InputEvent.down ⟨0, 0⟩ ::
        ([⟨5, 5⟩].map InputEvent.move ++ [InputEvent.up ⟨5, 5⟩]))).clickToggled = false :=
  (drag_never_click_toggles wEnvSel wState ⟨0, 0⟩ ⟨5, 5⟩ [⟨5, 5⟩] rfl (by simp)).1

/-! ## Strategy identity during a gesture (setDragMode recency) -/

/-- C3 amended: every strategy call dispatched by an event handler uses the
strategy installed in the selector's field at the moment of the call —
setDragMode replaces that field immediately, so a strategy installed
mid-drag is used by the remaining calls of the in-progress gesture (it is
not captured at drag start). -/
theorem strategy_calls_use_installed_strategy (env : Env) (s : SelectorState)
    (ev : InputEvent) :
    ∀ c ∈ (step env s ev).trace, c.2 = s.strategyMode := by
  intro c hc
  obtain ⟨op, md⟩ := c
  show md = s.strategyMode
  cases ev with
  | down p => simp [step, handleMouseDown] at hc
  | move p =>
    unfold step handleMouseMove at hc
    by_cases h1 : s.isDragging = true
    · simp only [h1, Bool.not_true, Bool.false_eq_true, if_false, if_true] at hc
      cases hd : s.dragStart with
      | none => simp [hd] at hc
      | some d =>
        cases hsh : s.selectionShape with
        | none => simp [hd, hsh] at hc
        | some sh =>
          simp only [hd, hsh, List.nil_append] at hc
          simp at hc
          rcases hc with ⟨_, h2⟩ | ⟨_, h2⟩ <;> exact h2
    · simp only [Bool.not_eq_true] at h1
      cases hd : s.dragStart with
      | none => simp [h1, hd] at hc
      | some d =>
        simp only [h1, hd, Bool.not_false, if_true, Bool.false_eq_true, if_false] at hc
        simp at hc
        rcases hc with ⟨_, h2⟩ | ⟨_, h2⟩ | ⟨_, h2⟩ | ⟨_, h2⟩ <;> exact h2
  | up p =>
    unfold step handleMouseUp completeDragSelection at hc
    by_cases h1 : s.isDragging = true
    · simp only [h1, if_true] at hc
      cases hd : s.dragStart with
      | none => simp [hd] at hc
      | some d =>
        cases hsh : s.selectionShape with
        | none => simp [hd, hsh] at hc
        | some sh =>
          simp only [hd, hsh] at hc
          simp [completionTestTrace] at hc
          rcases hc with ⟨_, h2⟩ | ⟨_, _, h2⟩ <;> exact h2
    · simp only [Bool.not_eq_true] at h1
      simp only [h1, Bool.false_eq_true, if_false] at hc
      cases hcz : s.clickedZoneId with
      | none => simp [hcz] at hc
      | some zid => simp [hcz] at hc
  | setMode m => simp [step] at hc
  | shiftKey b => simp [step] at hc

/-- A minimal environment for the scripted counterexample run: no zone is
ever hit, rendered or intersected. -/
def cEnv : Env := ⟨fun _ => none, fun _ => false, fun _ _ _ => false⟩

/-- A fresh selector in lasso mode with no zones. -/
def cState : SelectorState :=
  ⟨[], "", [], DragMode.lasso, DragMode.lasso, false, none, none, none, false⟩

/-- A gesture that switches the drag mode to path in mid-drag. -/
def cScript : List InputEvent :=
  [InputEvent.down ⟨0, 0⟩, InputEvent.move ⟨1, 0⟩, InputEvent.setMode DragMode.path,
   InputEvent.move ⟨1, 1⟩, InputEvent.up ⟨1, 1⟩]

/-- C3 counterexample: the drag starts under the lasso strategy (the
createShape call is tagged lasso), setDragMode path is issued mid-drag, and
the subsequent updateShape, applyStyle and completeSelection calls of the
same gesture are dispatched to the path strategy — the in-progress drag is
affected, contradicting the claim that the strategy is captured at drag
start. -/
theorem setDragMode_affects_inProgress_drag :
    cState.strategyMode = DragMode.lasso ∧
    (runScript cEnv cState cScript).trace =
      [(StratOp.createShapeOp, DragMode.lasso), (StratOp.applyStyleOp, DragMode.lasso),
       (StratOp.updateShapeOp, DragMode.lasso), (StratOp.applyStyleOp, DragMode.lasso),
       (StratOp.updateShapeOp, DragMode.path), (StratOp.applyStyleOp, DragMode.path),
       (StratOp.completeSelectionOp, DragMode.path)] ∧
    (StratOp.completeSelectionOp, DragMode.path) ∈ (runScript cEnv cState cScript).trace := by
  refine ⟨rfl, ?_, ?_⟩ <;> decide

/-- A selector mid-drag after a setDragMode to path. -/
def cMidState : SelectorState :=
  ⟨[], "", [], DragMode.path, DragMode.path, true, some ⟨0, 0⟩,
   some ⟨[⟨0, 0⟩, ⟨1, 0⟩], false⟩, none, false⟩

/-- Witness for strategy_calls_use_installed_strategy: a concrete mid-drag
move dispatches updateShape to the currently installed path strategy. -/
theorem strategy_calls_use_installed_strategy_witness :
    ((StratOp.updateShapeOp, DragMode.path) ∈
      (step cEnv cMidState (InputEvent.move ⟨1, 1⟩)).trace) ∧
    (StratOp.updateShapeOp, DragMode.path).2 = cMidState.strategyMode :=
  ⟨by decide,
   strategy_calls_use_installed_strategy cEnv cMidState (InputEvent.move ⟨1, 1⟩)
     (StratOp.updateShapeOp, DragMode.path) (by decide)⟩

end ZonePicker
